import Mathlib

/-!
Verification of the goonit call-stack classification and capture engine
(`core/type.go` of github.com/sbernheim/goonit).

The Go code is shallowly embedded:

* Go strings are Lean `String`s; the handful of `strings` library calls the
  source makes (`Split` on ".", `Join` with ".", `HasPrefix`, `HasSuffix`,
  `TrimPrefix`, `TrimSuffix`) are re-implemented below on `String.data`
  (lists of characters).  Go indexes by byte and Lean by character, but every
  byte offset the source uses is the length of a previously matched prefix,
  where byte- and character-offsets coincide, so the embedding is faithful.
* `unicode.IsLower` is embedded as `Char.isLower` (ASCII).  The two agree on
  ASCII identifiers, which is all the source's prefix tokens and Go
  identifiers in practice exercise.
* A `*runtime.Func` frame resolved by `CallerFuncInfo` becomes a `FuncInfo`
  value; the sequence of frames `runtime.Caller` would successively resolve
  is passed to `BuildCallerStack` as an explicit list.  Pointer identity of
  frames (the source compares `s.last == s.Mocked` on `*FuncInfo`) is
  modelled by the index of the frame in the walked sequence, since the Go
  code allocates a fresh `FuncInfo` per resolved frame.
* Code paths that dereference a possibly-nil pointer return `Option`
  (`none` = the Go program panics); test-fatal assertion failures
  (`Fatalf` / failed gomega `Expect`) become `Except` errors or an explicit
  result constructor.
-/

namespace Goonit

/-- Go `strings.HasPrefix`. -/
def goHasPfx (s pre : String) : Bool := pre.data.isPrefixOf s.data

/-- Go `strings.HasSuffix`. -/
def goHasSfx (s suf : String) : Bool := suf.data.isSuffixOf s.data

/-- Go `strings.TrimPrefix`: removes at most one copy of `pre` from the front. -/
def goTrimPfx (s pre : String) : String :=
  if pre.data.isPrefixOf s.data then ⟨s.data.drop pre.data.length⟩ else s

/-- Go `strings.TrimSuffix`: removes at most one copy of `suf` from the end. -/
def goTrimSfx (s suf : String) : String :=
  if suf.data.isSuffixOf s.data then ⟨s.data.take (s.data.length - suf.data.length)⟩ else s

/-- Character-level core of Go `strings.Split(s, ".")`. -/
def splitDotAux : List Char → List (List Char)
  | [] => [[]]
  | c :: rest =>
    if c = '.' then [] :: splitDotAux rest
    else
      match splitDotAux rest with
      | [] => [[c]]
      | h :: t => (c :: h) :: t

/-- Go `strings.Split(s, ".")`; never returns the empty list. -/
def goSplitDot (s : String) : List String := (splitDotAux s.data).map String.mk

/-- Go `strings.Join(l, ".")`. -/
def goJoinDot : List String → String
  | [] => ""
  | s :: rest =>
    match rest with
    | [] => s
    | _ :: _ => s ++ "." ++ goJoinDot rest

/-- The character Go's `utf8.DecodeRuneInString` yields just past a matched
prefix of `n` characters (`utf8.RuneError` on an empty remainder, which the
source never reaches). -/
def goNextChar (s : String) (n : Nat) : Char := (s.data.drop n).headD (Char.ofNat 0xFFFD)

/-- One resolved stack frame: `FuncInfo` of `core/type.go`, with the raw
symbol name standing in for the wrapped `*runtime.Func` (whose only use is
`f.Name()`). -/
structure FuncInfo where
  RawName : String
  File : String := ""
  Line : Nat := 0
  Function : String := ""
  Object : String := ""
  Package : String := ""
deriving DecidableEq, Repr

/-- `FuncInfo.isObjectRef` of the source. -/
def isObjectRef (s : String) : Bool := goHasPfx s "(" && goHasSfx s ")"

/-- `FuncInfo.findObjectRef`: index of the first parenthesized segment. -/
def findObjectRef : List String → Option Nat
  | [] => none
  | s :: rest => if isObjectRef s then some 0 else (findObjectRef rest).map (· + 1)

/-- `FuncInfo.trimObjectRef` of the source. -/
def trimObjectRef (s : String) : String :=
  goTrimPfx (goTrimPfx (goTrimSfx s ")") "(") "*"

/-- `FuncInfo.parseName` composed with the `FuncInfo` literal of
`NewFuncInfo`: fills the derived `Function`/`Object`/`Package` fields from
the raw qualified name. -/
def parseName (raw file : String) (line : Nat) : FuncInfo :=
  let nameElems := goSplitDot raw
  if nameElems.length < 2 then
    { RawName := raw, File := file, Line := line, Function := raw }
  else
    match findObjectRef nameElems with
    | some objIndex =>
      { RawName := raw, File := file, Line := line
        Function := goJoinDot (nameElems.drop (objIndex + 1))
        Object := trimObjectRef (nameElems.getD objIndex "")
        Package := goJoinDot (nameElems.take objIndex) }
    | none =>
      { RawName := raw, File := file, Line := line
        Function := nameElems.getLastD ""
        Package := goJoinDot nameElems.dropLast }

/-- `NewFuncInfo` of the source. -/
def NewFuncInfo (raw file : String) (line : Nat) : FuncInfo := parseName raw file line

/-- `startsWith` of the source (adapted there from the `go test` tool):
word-boundary-aware prefix test. -/
def startsWith (name pre : String) : Bool :=
  if !goHasPfx name pre then false
  else if name.data.length == pre.data.length then true
  else !(goNextChar name pre.data.length).isLower

/-- `FuncInfo.IsMock` of the source. -/
def FuncInfo.IsMock (f : FuncInfo) : Bool := startsWith f.Object "Mock"

/-- `FuncInfo.IsTest` of the source. -/
def FuncInfo.IsTest (f : FuncInfo) : Bool :=
  startsWith f.Function "Test" || startsWith f.Function "Benchmark" ||
    startsWith f.Function "Example"

/-- `FuncInfo.FileLine` of the source. -/
def FuncInfo.FileLine (f : FuncInfo) : String := f.File ++ ":" ++ toString f.Line

/-- `FuncInfo.LogString` of the source. -/
def FuncInfo.LogString (f : FuncInfo) : String :=
  if f.Object = "" then f.Package ++ "." ++ f.Function ++ " at " ++ f.FileLine
  else f.Object ++ "." ++ f.Function ++ " at " ++ f.FileLine

/-- `FuncInfoStack` of the source.  The five singled-out frames, and the
source's private `last` cursor, are pointers into the walked sequence in Go;
here they are indices into `Stack` (each Go iteration allocates a fresh
`FuncInfo`, so pointer equality is exactly index equality). -/
structure FuncInfoStack where
  Caller : Option Nat := none
  Stack : List FuncInfo := []
  Test : Option Nat := none
  Tested : Option Nat := none
  Mocked : Option Nat := none
  Mocker : Option Nat := none
  last : Option Nat := none
  thisF : Option FuncInfo := none
deriving DecidableEq, Repr

/-- The frame a field of the classification points at (`none` = nil pointer). -/
def FuncInfoStack.frameAt (s : FuncInfoStack) (idx : Option Nat) : Option FuncInfo :=
  idx.bind fun i => s.Stack[i]?

/-- One iteration of the `for i := 3; ; i++` loop body of `BuildCallerStack`,
for a successfully resolved frame `f`.  The Go statements are flattened into
one record update; this is faithful because each condition reads only fields
the earlier statements of the same iteration do not write (in particular the
Mocker check reads the previous iteration's `last` and `Mocked`, and
`Tested` receives the previous iteration's `last`). -/
def walkStep (thisPkg : String) (s : FuncInfoStack) (f : FuncInfo) : FuncInfoStack :=
  let i := s.Stack.length
  { Stack := s.Stack ++ [f]
    Caller := if s.Caller = none ∧ f.Package ≠ thisPkg then some i else s.Caller
    Mocker := if s.last = s.Mocked then some i else s.Mocker
    Mocked := if f.IsMock then some i else s.Mocked
    Test := if f.IsTest then some i else s.Test
    Tested := if f.IsTest then s.last else s.Tested
    last := some i
    thisF := s.thisF }

/-- The walking loop of `BuildCallerStack`: the list argument is the sequence
of frames `CallerFuncInfo(3)`, `CallerFuncInfo(4)`, ... successfully resolves
before the first failure ends the loop. -/
def buildLoop (thisPkg : String) (s : FuncInfoStack) : List FuncInfo → FuncInfoStack
  | [] => s
  | f :: rest => buildLoop thisPkg (walkStep thisPkg s f) rest

/-- `BaseTest.BuildCallerStack` of the source.  `thisWalker` is the frame
`CallerFuncInfo(1)` resolves for the walker itself (`none` = resolution
failed, in which case the Go code returns the empty classification at once);
`frames` is the outward frame sequence as in `buildLoop`. -/
def BuildCallerStack (thisWalker : Option FuncInfo) (frames : List FuncInfo) : FuncInfoStack :=
  match thisWalker with
  | none => {}
  | some t => buildLoop t.Package { thisF := some t } frames

/-- `FuncInfoStack.MockedCall` of the source:
`strings.Join([]string{s.Mocker.Object, s.Mocker.Function, s.Mocked.Object,
s.Mocked.Function}, ".")`.  The Go code dereferences `s.Mocker` and
`s.Mocked` unconditionally; `none` models the nil-pointer panic that raises
when either is absent. -/
def MockedCall (s : FuncInfoStack) : Option String :=
  match s.frameAt s.Mocker, s.frameAt s.Mocked with
  | some mr, some md => some (goJoinDot [mr.Object, mr.Function, md.Object, md.Function])
  | _, _ => none

/-- `BaseTest.GetMockedCallName` of the source: a fresh walk followed by an
unconditional `MockedCall`. -/
def GetMockedCallName (thisWalker : Option FuncInfo) (frames : List FuncInfo) : Option String :=
  MockedCall (BuildCallerStack thisWalker frames)

/-- Runtime types of captured values, the fragment of Go's `reflect.Type`
the capture store needs. -/
inductive GoType
  | tInt
  | tString
  | tBool
deriving DecidableEq, Repr

/-- A captured `interface{}` value. -/
inductive GoVal
  | vInt (n : Int)
  | vString (s : String)
  | vBool (b : Bool)
deriving DecidableEq, Repr

/-- `reflect.TypeOf` on a captured value. -/
def GoVal.typeOf : GoVal → GoType
  | .vInt _ => .tInt
  | .vString _ => .tString
  | .vBool _ => .tBool

/-- The name `%T` prints for a runtime type. -/
def typeName : GoType → String
  | .tInt => "int"
  | .tString => "string"
  | .tBool => "bool"

/-- Gomega's `AssignableToTypeOf` / `reflect.Type.AssignableTo` check.  For
the concrete (non-interface) types modelled here Go assignability coincides
with type identity. -/
def assignableTo (v : GoVal) (t : GoType) : Bool := v.typeOf == t

/-- The capture-store state of `BaseTest`: the global ordered sequence and
the per-correlation-key buckets.  The Go `map[string][]interface{}` is an
association list whose keys are pairwise distinct. -/
structure BaseTest where
  captured : List GoVal := []
  capsFrom : List (String × List GoVal) := []
deriving DecidableEq, Repr

/-- Go map read `m[k]` with its `found` flag. -/
def mapLookup (m : List (String × List GoVal)) (k : String) : Option (List GoVal) :=
  match m with
  | [] => none
  | (k2, v) :: rest => if k2 = k then some v else mapLookup rest k

/-- Go map write `m[k] = v`. -/
def mapStore (m : List (String × List GoVal)) (k : String) (v : List GoVal) :
    List (String × List GoVal) :=
  match m with
  | [] => [(k, v)]
  | (k2, v2) :: rest => if k2 = k then (k2, v) :: rest else (k2, v2) :: mapStore rest k v

/-- `BaseTest.Capture` of the source.  The walk inputs are passed explicitly
as in `BuildCallerStack`.  The result's `Bool` records whether the
`NO MOCK FOUND FOR CAPTURE` diagnostic was logged (`Logf`, non-fatal); a
`none` result models a nil-pointer panic: the diagnostic formats
`stack.Caller.LogString()`, and the keyed branch derives `MockedCall`. -/
def Capture (x : BaseTest) (thisWalker : Option FuncInfo) (frames : List FuncInfo)
    (vals : List GoVal) : Option (BaseTest × Bool) :=
  let stack := BuildCallerStack thisWalker frames
  if stack.Mocked = none then
    match stack.frameAt stack.Caller with
    | none => none
    | some _ => some ({ x with captured := x.captured ++ vals }, true)
  else
    match MockedCall stack with
    | none => none
    | some key =>
      let caps := (mapLookup x.capsFrom key).getD []
      some ({ x with capsFrom := mapStore x.capsFrom key (caps ++ vals)
                     captured := x.captured ++ vals }, false)

/-- `BaseTest.AllCaptured` of the source. -/
def AllCaptured (x : BaseTest) : List GoVal := x.captured

/-- Result of `BaseTest.Captured`: the returned value, a fatal gomega
assertion failure (`Fatalf`, halting the test), or a Go runtime panic. -/
inductive CapResult
  | ok (v : GoVal)
  | fatal (msg : String)
  | crash (msg : String)
deriving DecidableEq, Repr

/-- `BaseTest.Captured` of the source: three sequential gomega assertions
(non-empty store, index in range, assignable type), then the indexed value.
Go's `index` is a signed `int`; a negative index passes the first two
assertions and then panics evaluating `x.captured[index]`, embedded as
`crash`. -/
def Captured (x : BaseTest) (index : Int) (t : GoType) : CapResult :=
  if x.captured.length = 0 then
    .fatal "There were no captured parameter values!"
  else if ¬ ((index + 1 : Int) ≤ (x.captured.length : Int)) then
    .fatal "cannot retrieve index"
  else if index < 0 then
    .crash "runtime error: index out of range"
  else
    match x.captured[index.toNat]? with
    | none => .crash "runtime error: index out of range"
    | some v =>
      if assignableTo v t then .ok v
      else .fatal "captured parameter type is not assignable"

/-- `BaseTest.capturedOfType` (the private filter helper) of the source. -/
def capturedOfType (t : GoType) (caps : List GoVal) : List GoVal :=
  caps.filter fun c => assignableTo c t

/-- `BaseTest.CapturedOfType` of the source (the Fatalf message also formats
the live caller, which is outside the store state and elided from the error
value). -/
def CapturedOfType (x : BaseTest) (t : GoType) : Except String (List GoVal) :=
  let caps := x.capsFrom.foldl (fun acc kv => acc ++ capturedOfType t kv.2) []
  if caps.length = 0 then
    .error "There were no captured parameters of type"
  else
    .ok caps

/-- `BaseTest.capturedKeys` of the source. -/
def capturedKeys (x : BaseTest) : List String := x.capsFrom.map Prod.fst

/-- The test-fatal failures of the keyed retrieval operations. -/
inductive CapErr
  | noCaptures
  | missingKey (keys : List String)
  | noneOfType (listedTypes : List String) (keys : List String)
deriving DecidableEq, Repr

/-- `BaseTest.CapturedFrom` of the source: gomega non-empty assertion on the
whole map, then the keyed lookup with its `found` flag. -/
def CapturedFrom (x : BaseTest) (mockCall : String) : Except CapErr (List GoVal) :=
  if x.capsFrom.isEmpty then
    .error .noCaptures
  else
    match mapLookup x.capsFrom mockCall with
    | none => .error (.missingKey (capturedKeys x))
    | some caps => .ok caps

/-- `BaseTest.CapturedOfTypeFromCall` of the source.  `listedTypes` is the
`capTypes` slice of the Fatalf diagnostic; the source builds it by ranging
over `caps` — the just-computed filtered result, already known to be empty —
rather than over the bucket `capsFrom`, so it is always empty here. -/
def CapturedOfTypeFromCall (x : BaseTest) (t : GoType) (mockCall : String) :
    Except CapErr (List GoVal) :=
  match CapturedFrom x mockCall with
  | .error e => .error e
  | .ok capsOfKey =>
    let caps := capturedOfType t capsOfKey
    if caps.length = 0 then
      .error (.noneOfType (caps.map fun c => typeName c.typeOf) (capturedKeys x))
    else
      .ok caps

end Goonit

namespace Goonit

/-! ## Concrete frames used by the closed statements -/

/-- The frame `CallerFuncInfo(1)` resolves inside `BuildCallerStack`: the
walker itself, in the package the Caller check compares against. -/
def fiWalker : FuncInfo :=
  NewFuncInfo "github.com/sbernheim/goonit/core.(*BaseTest).BuildCallerStack" "core/type.go" 464

/-- A plain production-code frame: not a mock, not a test. -/
def fiPlain : FuncInfo := NewFuncInfo "example.com/app.DoWork" "app/work.go" 10

/-- A frame of a mock object (receiver `MockAlpha`). -/
def fiMockA : FuncInfo := NewFuncInfo "example.com/app.(*MockAlpha).Ping" "app/mock.go" 1

/-- A second, distinct mock-object frame (receiver `MockBeta`). -/
def fiMockB : FuncInfo := NewFuncInfo "example.com/app.(*MockBeta).Pong" "app/mock.go" 2

/-- A test-function frame. -/
def fiTestOne : FuncInfo := NewFuncInfo "example.com/app.TestOne" "app/a_test.go" 5

/-- A second, distinct test-function frame. -/
def fiTestTwo : FuncInfo := NewFuncInfo "example.com/app.TestTwo" "app/a_test.go" 25

/-- The walk used by the concrete capture scenarios: a mock frame invoked by
plain calling code. -/
def capFrames : List FuncInfo := [fiMockA, fiPlain]

/-- The correlation key the walk over `capFrames` produces. -/
def capKey : String := (MockedCall (BuildCallerStack (some fiWalker) capFrames)).getD ""

/-! ## Projection and loop lemmas for the walker -/

theorem walkStep_Stack (p : String) (s : FuncInfoStack) (f : FuncInfo) :
    (walkStep p s f).Stack = s.Stack ++ [f] := rfl

theorem walkStep_Caller (p : String) (s : FuncInfoStack) (f : FuncInfo) :
    (walkStep p s f).Caller =
      if s.Caller = none ∧ f.Package ≠ p then some s.Stack.length else s.Caller := rfl

theorem walkStep_Mocker (p : String) (s : FuncInfoStack) (f : FuncInfo) :
    (walkStep p s f).Mocker =
      if s.last = s.Mocked then some s.Stack.length else s.Mocker := rfl

theorem walkStep_Mocked (p : String) (s : FuncInfoStack) (f : FuncInfo) :
    (walkStep p s f).Mocked = if f.IsMock then some s.Stack.length else s.Mocked := rfl

theorem walkStep_Test (p : String) (s : FuncInfoStack) (f : FuncInfo) :
    (walkStep p s f).Test = if f.IsTest then some s.Stack.length else s.Test := rfl

theorem walkStep_Tested (p : String) (s : FuncInfoStack) (f : FuncInfo) :
    (walkStep p s f).Tested = if f.IsTest then s.last else s.Tested := rfl

theorem walkStep_last (p : String) (s : FuncInfoStack) (f : FuncInfo) :
    (walkStep p s f).last = some s.Stack.length := rfl

theorem buildLoop_nil (p : String) (s : FuncInfoStack) : buildLoop p s [] = s := rfl

theorem buildLoop_cons (p : String) (s : FuncInfoStack) (f : FuncInfo) (l : List FuncInfo) :
    buildLoop p s (f :: l) = buildLoop p (walkStep p s f) l := rfl

theorem BuildCallerStack_some (t : FuncInfo) (frames : List FuncInfo) :
    BuildCallerStack (some t) frames = buildLoop t.Package { thisF := some t } frames := rfl

/-- Without any mock frame left to walk, `Mocked` stays `nil`. -/
theorem buildLoop_Mocked_none (p : String) (l : List FuncInfo) :
    ∀ s : FuncInfoStack, (∀ f ∈ l, f.IsMock = false) → s.Mocked = none →
      (buildLoop p s l).Mocked = none := by
  induction l with
  | nil => intro s _ hM; exact hM
  | cons f rest ih =>
    intro s h hM
    have hf : f.IsMock = false := h f (by simp)
    rw [buildLoop_cons]
    refine ih _ (fun g hg => h g (by simp [hg])) ?_
    rw [walkStep_Mocked, hf]
    simpa using hM

/-- Once the cursor `last` points at a real frame while `Mocked` is `nil` and
no mock frame remains, `Mocker` is never reassigned. -/
theorem buildLoop_Mocker_stable (p : String) (l : List FuncInfo) :
    ∀ s : FuncInfoStack, (∀ f ∈ l, f.IsMock = false) → s.Mocked = none → s.last ≠ none →
      (buildLoop p s l).Mocker = s.Mocker := by
  induction l with
  | nil => intro s _ _ _; rfl
  | cons f rest ih =>
    intro s h hM hl
    have hf : f.IsMock = false := h f (by simp)
    rw [buildLoop_cons]
    have hne : ¬ (s.last = s.Mocked) := by rw [hM]; exact hl
    have h1 : (walkStep p s f).Mocker = s.Mocker := by rw [walkStep_Mocker, if_neg hne]
    have h2 : (walkStep p s f).Mocked = none := by rw [walkStep_Mocked, hf]; simpa using hM
    have h3 : (walkStep p s f).last ≠ none := by rw [walkStep_last]; simp
    rw [ih _ (fun g hg => h g (by simp [hg])) h2 h3, h1]

/-- `Test`, once set, stays set (though possibly to a later frame). -/
theorem buildLoop_Test_isSome (p : String) (l : List FuncInfo) :
    ∀ s : FuncInfoStack, s.Test ≠ none → (buildLoop p s l).Test ≠ none := by
  induction l with
  | nil => intro s h; exact h
  | cons f rest ih =>
    intro s h
    rw [buildLoop_cons]
    refine ih _ ?_
    rw [walkStep_Test]
    split
    · simp
    · exact h

/-- A walked test frame makes `Test` non-nil for the rest of the walk. -/
theorem buildLoop_Test_set (p : String) (l : List FuncInfo) :
    ∀ s : FuncInfoStack, (∃ f ∈ l, f.IsTest = true) → (buildLoop p s l).Test ≠ none := by
  induction l with
  | nil => intro s h; exact absurd h (by simp)
  | cons f rest ih =>
    intro s h
    rw [buildLoop_cons]
    rcases h with ⟨g, hg, hgt⟩
    rcases List.mem_cons.mp hg with rfl | hmem
    · refine buildLoop_Test_isSome p rest _ ?_
      rw [walkStep_Test, hgt]
      simp
    · exact ih _ ⟨g, hmem, hgt⟩

/-- `Caller` is guarded by a nil check: once set it is never reassigned. -/
theorem buildLoop_Caller_stable (p : String) (l : List FuncInfo) :
    ∀ s : FuncInfoStack, s.Caller ≠ none → (buildLoop p s l).Caller = s.Caller := by
  induction l with
  | nil => intro s _; rfl
  | cons f rest ih =>
    intro s h
    rw [buildLoop_cons]
    have h1 : (walkStep p s f).Caller = s.Caller := by
      rw [walkStep_Caller, if_neg]
      intro hc
      exact h hc.1
    rw [ih _ (by rw [h1]; exact h), h1]

end Goonit

namespace Goonit

/-! ## Well-formedness of walk states -/

/-- Invariant maintained by the walking loop: index fields point into the
walked sequence, the `last` cursor is nil only before the first iteration
(when `Mocker` and `Mocked` are still nil too), and from the first iteration
on `Mocker` is non-nil (the `last == Mocked` check fires on nil == nil). -/
def StackWF (s : FuncInfoStack) : Prop :=
  (∀ i, s.Mocker = some i → i < s.Stack.length) ∧
  (∀ i, s.Mocked = some i → i < s.Stack.length) ∧
  (s.last = none → s.Mocker = none ∧ s.Mocked = none) ∧
  (s.last ≠ none → s.Mocker ≠ none)

theorem stackWF_walkStep (p : String) (s : FuncInfoStack) (f : FuncInfo)
    (h : StackWF s) : StackWF (walkStep p s f) := by
  obtain ⟨hkr, hkd, hn, hs⟩ := h
  refine ⟨?_, ?_, ?_, ?_⟩
  · intro i hi
    rw [walkStep_Mocker] at hi
    rw [walkStep_Stack]
    simp only [List.length_append, List.length_cons, List.length_nil]
    split at hi
    · cases hi; omega
    · have := hkr i hi; omega
  · intro i hi
    rw [walkStep_Mocked] at hi
    rw [walkStep_Stack]
    simp only [List.length_append, List.length_cons, List.length_nil]
    split at hi
    · cases hi; omega
    · have := hkd i hi; omega
  · intro hl
    rw [walkStep_last] at hl
    exact absurd hl (by simp)
  · intro _
    rw [walkStep_Mocker]
    split
    · simp
    · rename_i hne
      rcases hll : s.last with _ | j
      · exact absurd (hll.trans (hn hll).2.symm) hne
      · exact hs (by rw [hll]; simp)

theorem stackWF_buildLoop (p : String) (l : List FuncInfo) :
    ∀ s : FuncInfoStack, StackWF s → StackWF (buildLoop p s l) := by
  induction l with
  | nil => intro s h; exact h
  | cons f rest ih =>
    intro s h
    rw [buildLoop_cons]
    exact ih _ (stackWF_walkStep p s f h)

theorem stackWF_empty : StackWF ({} : FuncInfoStack) := by
  refine ⟨?_, ?_, ?_, ?_⟩ <;> simp

theorem stackWF_start (t : FuncInfo) : StackWF ({ thisF := some t } : FuncInfoStack) := by
  refine ⟨?_, ?_, ?_, ?_⟩ <;> simp

theorem stackWF_BuildCallerStack (tw : Option FuncInfo) (frames : List FuncInfo) :
    StackWF (BuildCallerStack tw frames) := by
  cases tw with
  | none => exact stackWF_empty
  | some t =>
    rw [BuildCallerStack_some]
    exact stackWF_buildLoop t.Package frames _ (stackWF_start t)

/-- On a well-formed walk result, a present `Mocked` frame guarantees the
correlation key is derivable (no nil dereference in `MockedCall`). -/
theorem mockedCall_isSome (s : FuncInfoStack) (h : StackWF s) (hm : s.Mocked ≠ none) :
    ∃ key, MockedCall s = some key := by
  obtain ⟨hkr, hkd, hn, hs⟩ := h
  rcases hmd : s.Mocked with _ | i
  · exact absurd hmd hm
  rcases hmr : s.Mocker with _ | j
  · rcases hll : s.last with _ | k
    · exact absurd (hn hll).2 (by rw [hmd]; simp)
    · exact absurd hmr (hs (by rw [hll]; simp))
  · have hdi : i < s.Stack.length := hkd i hmd
    have hdj : j < s.Stack.length := hkr j hmr
    refine ⟨goJoinDot [(s.Stack.get ⟨j, hdj⟩).Object, (s.Stack.get ⟨j, hdj⟩).Function,
        (s.Stack.get ⟨i, hdi⟩).Object, (s.Stack.get ⟨i, hdi⟩).Function], ?_⟩
    unfold MockedCall
    rw [show s.frameAt s.Mocker = some (s.Stack.get ⟨j, hdj⟩) by
          simp [FuncInfoStack.frameAt, hmr, List.getElem?_eq_getElem hdj],
        show s.frameAt s.Mocked = some (s.Stack.get ⟨i, hdi⟩) by
          simp [FuncInfoStack.frameAt, hmd, List.getElem?_eq_getElem hdi]]

end Goonit

namespace Goonit

/-! ## C1, C2: classification fields over a whole walk -/

/-- C1, counterexample: a walk of one resolved frame satisfying neither
`IsMock` nor `IsTest` leaves `Mocked` nil, yet sets `Mocker` to that first
frame — the `last == Mocked` check fires on the first iteration when both
are still nil — so the claim that `Mocker` remains absent whenever no frame
is a mock frame is false. -/
theorem C1_mocker_counterexample :
    fiPlain.IsMock = false ∧
    (BuildCallerStack (some fiWalker) [fiPlain]).Mocked = none ∧
    (BuildCallerStack (some fiWalker) [fiPlain]).Mocker = some 0 := by decide

/-- C1 (amended): in a walk none of whose resolved frames satisfies
`IsMock`, `Mocked` stays nil and `Test` is still set when a test frame is
walked, but `Mocker`, instead of staying nil, points at the first walked
frame whenever the walk is non-empty (it is nil only for an empty walk). -/
theorem C1_no_mock_walk (t : FuncInfo) (frames : List FuncInfo)
    (hnm : ∀ f ∈ frames, f.IsMock = false) :
    (BuildCallerStack (some t) frames).Mocked = none ∧
    (BuildCallerStack (some t) frames).Mocker = (if frames.isEmpty then none else some 0) ∧
    ((∃ f ∈ frames, f.IsTest = true) → (BuildCallerStack (some t) frames).Test ≠ none) := by
  refine ⟨?_, ?_, ?_⟩
  · rw [BuildCallerStack_some]
    exact buildLoop_Mocked_none t.Package frames _ hnm rfl
  · cases frames with
    | nil => rfl
    | cons f rest =>
      rw [BuildCallerStack_some, buildLoop_cons]
      have hf : f.IsMock = false := hnm f (by simp)
      have h1 : (walkStep t.Package { thisF := some t } f).Mocker = some 0 := by
        rw [walkStep_Mocker]
        simp
      have h2 : (walkStep t.Package { thisF := some t } f).Mocked = none := by
        rw [walkStep_Mocked, hf]
        simp
      have h3 : (walkStep t.Package { thisF := some t } f).last ≠ none := by
        rw [walkStep_last]
        simp
      rw [buildLoop_Mocker_stable t.Package rest _ (fun g hg => hnm g (by simp [hg])) h2 h3, h1]
      simp
  · intro h
    rw [BuildCallerStack_some]
    exact buildLoop_Test_set t.Package frames _ h

/-- Witness for `C1_no_mock_walk` at a one-frame walk containing only a
test frame. -/
theorem C1_no_mock_walk_witness :
    (BuildCallerStack (some fiWalker) [fiTestOne]).Mocked = none ∧
    (BuildCallerStack (some fiWalker) [fiTestOne]).Mocker =
      (if ([fiTestOne] : List FuncInfo).isEmpty then none else some 0) ∧
    ((∃ f ∈ [fiTestOne], f.IsTest = true) →
      (BuildCallerStack (some fiWalker) [fiTestOne]).Test ≠ none) :=
  C1_no_mock_walk fiWalker [fiTestOne] (by decide)

/-- C2, counterexample: a walk over two mock frames passes through a state
in which `Mocked` is the first frame and ends with `Mocked` the second, so
`Mocked` is overwritten during a single walk — first match does not win. -/
theorem C2_overwrite_counterexample :
    fiMockA.IsMock = true ∧ fiMockB.IsMock = true ∧
    (walkStep fiWalker.Package { thisF := some fiWalker } fiMockA).Mocked = some 0 ∧
    BuildCallerStack (some fiWalker) [fiMockA, fiMockB] =
      buildLoop fiWalker.Package
        (walkStep fiWalker.Package { thisF := some fiWalker } fiMockA) [fiMockB] ∧
    (BuildCallerStack (some fiWalker) [fiMockA, fiMockB]).Mocked = some 1 := by
  refine ⟨by decide, by decide, by decide, rfl, by decide⟩

/-- C2 (amended): only `ImmediateCaller` is protected by a nil check — once
set, the rest of the walk never changes it.  The other four fields are
unguarded: later matching frames overwrite `Mocked`, `Test` and `Tested`
(last match wins), and `Mocker` is reassigned one iteration after each newly
committed `Mocked` (shown on concrete walks). -/
theorem C2_only_caller_guarded :
    (∀ (p : String) (s : FuncInfoStack) (l : List FuncInfo),
      s.Caller ≠ none → (buildLoop p s l).Caller = s.Caller) ∧
    (walkStep fiWalker.Package { thisF := some fiWalker } fiTestOne).Test = some 0 ∧
    (BuildCallerStack (some fiWalker) [fiTestOne, fiTestTwo]).Test = some 1 ∧
    (BuildCallerStack (some fiWalker) [fiPlain, fiTestOne]).Tested = some 0 ∧
    (BuildCallerStack (some fiWalker) [fiPlain, fiTestOne, fiTestTwo]).Tested = some 1 ∧
    (walkStep fiWalker.Package { thisF := some fiWalker } fiMockA).Mocker = some 0 ∧
    (BuildCallerStack (some fiWalker) [fiMockA, fiMockB]).Mocker = some 1 := by
  refine ⟨fun p s l h => buildLoop_Caller_stable p l s h, by decide, by decide, by decide,
    by decide, by decide, by decide⟩

/-- Witness for `C2_only_caller_guarded`: a state whose `Caller` is already
set keeps it through two further frames, one of which is outside the
walker's package. -/
theorem C2_only_caller_guarded_witness :
    (buildLoop "example.com/app" { Caller := some 0, Stack := [fiPlain] }
      [fiTestOne, fiMockA]).Caller = some 0 :=
  C2_only_caller_guarded.1 "example.com/app" { Caller := some 0, Stack := [fiPlain] }
    [fiTestOne, fiMockA] (by simp)

/-! ## C10: GetMockedCallName on a mock-free stack -/

/-- C10: whenever no resolved frame of the walk satisfies `IsMock`,
`GetMockedCallName` reaches `MockedCall` with `Mocked` nil and dereferences
it; the embedding returns `none` exactly on that panic, so the crash branch
is explicit and total. -/
theorem C10_getMockedCallName_crash (t : FuncInfo) (frames : List FuncInfo)
    (hnm : ∀ f ∈ frames, f.IsMock = false) :
    GetMockedCallName (some t) frames = none := by
  have hM : (BuildCallerStack (some t) frames).Mocked = none := by
    rw [BuildCallerStack_some]
    exact buildLoop_Mocked_none t.Package frames _ hnm rfl
  unfold GetMockedCallName MockedCall
  rw [show (BuildCallerStack (some t) frames).frameAt
        (BuildCallerStack (some t) frames).Mocked = none by
      simp [FuncInfoStack.frameAt, hM]]
  cases h : (BuildCallerStack (some t) frames).frameAt
      (BuildCallerStack (some t) frames).Mocker <;> rfl

/-- Witness for `C10_getMockedCallName_crash` on a concrete mock-free
stack. -/
theorem C10_getMockedCallName_crash_witness :
    GetMockedCallName (some fiWalker) [fiPlain, fiTestOne] = none :=
  C10_getMockedCallName_crash fiWalker [fiPlain, fiTestOne] (by decide)

end Goonit

namespace Goonit

/-! ## C3–C5: symbol parsing and the frame predicates -/

theorem string_ext {s t : String} (h : s.data = t.data) : s = t := by
  cases s
  cases t
  cases h
  rfl

/-- The claims' word-boundary prefix rule: the prefix is the whole name, or
is followed by a non-lowercase character. -/
def wordBoundary (name pre : String) : Prop :=
  goHasPfx name pre = true ∧
    (name = pre ∨ (goNextChar name pre.data.length).isLower = false)

/-- The source's `startsWith` decides exactly the word-boundary rule. -/
theorem startsWith_iff (name pre : String) :
    startsWith name pre = true ↔ wordBoundary name pre := by
  rw [startsWith, wordBoundary]
  cases hp : goHasPfx name pre with
  | false => simp [hp]
  | true =>
    cases hb : name.data.length == pre.data.length with
    | true =>
      have hl : name.data.length = pre.data.length := by simpa using hb
      have hnp : name = pre := by
        apply string_ext
        have := List.IsPrefix.eq_of_length
          (List.isPrefixOf_iff_prefix.mp (by rw [goHasPfx] at hp; exact hp)) hl.symm
        exact this.symm
      simp [hp, hb, hnp]
    | false =>
      have hl : ¬ name.data.length = pre.data.length := by simpa using hb
      have hne : name ≠ pre := fun he => hl (by rw [he])
      simp [hp, hb, hne]

/-- `findObjectRef` returns the first parenthesized segment, scanning left
to right. -/
theorem findObjectRef_first (l : List String) :
    ∀ i : Nat, findObjectRef l = some i ↔
      (i < l.length ∧ isObjectRef (l.getD i "") = true ∧
        ∀ j, j < i → isObjectRef (l.getD j "") = false) := by
  induction l with
  | nil => intro i; simp [findObjectRef]
  | cons s rest ih =>
    intro i
    rw [findObjectRef]
    by_cases hobj : isObjectRef s = true
    · rw [if_pos hobj]
      constructor
      · intro h
        injection h with h
        subst h
        exact ⟨by simp, by simpa using hobj, by omega⟩
      · rintro ⟨hlen, hget, hfirst⟩
        cases i with
        | zero => rfl
        | succ k => exact absurd (by simpa using hfirst 0 (by omega)) (by simp [hobj])
    · rw [if_neg hobj]
      have hobj2 : isObjectRef s = false := by simpa using hobj
      cases i with
      | zero =>
        rw [Option.map_eq_some']
        constructor
        · rintro ⟨k, _, hk⟩
          omega
        · rintro ⟨_, hget, _⟩
          rw [List.getD_cons_zero] at hget
          exact absurd hget (by simp [hobj2])
      | succ k =>
        rw [Option.map_eq_some']
        constructor
        · rintro ⟨m, hm, hmk⟩
          have hmkk : m = k := by omega
          rw [hmkk] at hm
          obtain ⟨h1, h2, h3⟩ := (ih k).mp hm
          refine ⟨by simp; omega, by simpa using h2, ?_⟩
          intro j hj
          cases j with
          | zero => simpa using hobj2
          | succ j2 => simpa using h3 j2 (by omega)
        · rintro ⟨h1, h2, h3⟩
          refine ⟨k, (ih k).mpr ⟨by simp at h1; omega, by simpa using h2, ?_⟩, rfl⟩
          intro j hj
          simpa using h3 (j + 1) (by omega)

/-- `trimObjectRef` on a parenthesized segment strips exactly the
surrounding parentheses and then at most one leading `*`. -/
theorem trimObjectRef_strip (s : String) (h : isObjectRef s = true) :
    trimObjectRef s = goTrimPfx ⟨(s.data.drop 1).dropLast⟩ "*" := by
  rw [isObjectRef, Bool.and_eq_true] at h
  obtain ⟨hp, hsf⟩ := h
  rw [goHasPfx] at hp
  rw [goHasSfx] at hsf
  obtain ⟨tail, htail⟩ := List.isPrefixOf_iff_prefix.mp hp
  have hst : s.data = '(' :: tail := htail.symm
  have htail_ne : tail ≠ [] := by
    intro he
    obtain ⟨u, hu⟩ := List.isSuffixOf_iff_suffix.mp hsf
    rw [hst, he] at hu
    rcases u with _ | ⟨a, u⟩
    · exact absurd hu (by decide)
    · have hlen := congrArg List.length hu
      simp at hlen
  have hsfxlen : ((")" : String).data.length) = 1 := rfl
  have h1 : goTrimSfx s ")" = ⟨s.data.dropLast⟩ := by
    rw [goTrimSfx, if_pos hsf, hsfxlen, List.dropLast_eq_take]
  have hdrop : s.data.dropLast = '(' :: tail.dropLast := by
    rw [hst, List.dropLast_cons_of_ne_nil htail_ne]
  have hmk : (⟨s.data.dropLast⟩ : String).data = s.data.dropLast := rfl
  have hparen : (("(" : String).data) = ['('] := rfl
  have h2 : goTrimPfx ⟨s.data.dropLast⟩ "(" = ⟨(s.data.drop 1).dropLast⟩ := by
    have hpre : (("(" : String).data.isPrefixOf (⟨s.data.dropLast⟩ : String).data) = true := by
      rw [List.isPrefixOf_iff_prefix, hmk, hdrop, hparen]
      exact ⟨tail.dropLast, rfl⟩
    rw [goTrimPfx, if_pos hpre]
    congr 1
    rw [hmk, hdrop, hst, hparen]
    rfl
  rw [trimObjectRef, h1, h2]

end Goonit

namespace Goonit

/-- A frame whose parsed function name is `s` (the input of the
`IsTestFrame` examples). -/
def mkFn (s : String) : FuncInfo := { RawName := s, Function := s }

/-- A frame whose parsed receiver-type name is `s` (the input of the
`IsMockFrame` examples). -/
def mkObj (s : String) : FuncInfo := { RawName := s, Object := s }

/-- C3: symbol-name parsing.  A raw name with fewer than two dot-separated
segments becomes the whole function name with receiver and namespace empty;
otherwise the first parenthesized segment (scanning left to right — the
first conjunct characterizes `findObjectRef` that way) is the receiver
marker: the function name joins the segments after it (possibly empty), the
receiver name is the segment with its surrounding parentheses and at most
one leading `*` stripped (second conjunct), and the namespace joins the
segments before it; with no parenthesized segment the last segment is the
function name and the rest the namespace, the receiver staying empty.
Concrete conjuncts pin the claim's edge cases. -/
theorem C3_parseName_contract :
    (∀ l : List String, ∀ i : Nat, findObjectRef l = some i ↔
      (i < l.length ∧ isObjectRef (l.getD i "") = true ∧
        ∀ j, j < i → isObjectRef (l.getD j "") = false)) ∧
    (∀ s : String, isObjectRef s = true →
      trimObjectRef s = goTrimPfx ⟨(s.data.drop 1).dropLast⟩ "*") ∧
    (∀ raw file : String, ∀ line : Nat,
      ((goSplitDot raw).length < 2 →
        (NewFuncInfo raw file line).Function = raw ∧
        (NewFuncInfo raw file line).Object = "" ∧
        (NewFuncInfo raw file line).Package = "") ∧
      (∀ i, 2 ≤ (goSplitDot raw).length → findObjectRef (goSplitDot raw) = some i →
        (NewFuncInfo raw file line).Function = goJoinDot ((goSplitDot raw).drop (i + 1)) ∧
        (NewFuncInfo raw file line).Object = trimObjectRef ((goSplitDot raw).getD i "") ∧
        (NewFuncInfo raw file line).Package = goJoinDot ((goSplitDot raw).take i)) ∧
      (2 ≤ (goSplitDot raw).length → findObjectRef (goSplitDot raw) = none →
        (NewFuncInfo raw file line).Function = (goSplitDot raw).getLastD "" ∧
        (NewFuncInfo raw file line).Object = "" ∧
        (NewFuncInfo raw file line).Package = goJoinDot (goSplitDot raw).dropLast)) ∧
    (NewFuncInfo "main" "" 0).Function = "main" ∧
    (NewFuncInfo "main" "" 0).Object = "" ∧
    (NewFuncInfo "main" "" 0).Package = "" ∧
    (NewFuncInfo "a.(*T).(*U).M" "" 0).Object = "T" ∧
    (NewFuncInfo "a.(*T).(*U).M" "" 0).Function = "(*U).M" ∧
    (NewFuncInfo "pkg.(*T)" "" 0).Function = "" ∧
    (NewFuncInfo "pkg.(*T)" "" 0).Object = "T" ∧
    (NewFuncInfo "pkg.(*T)" "" 0).Package = "pkg" ∧
    (NewFuncInfo "p.(**T).M" "" 0).Object = "*T" ∧
    (NewFuncInfo "pkg.sub.Fn" "" 0).Function = "Fn" ∧
    (NewFuncInfo "pkg.sub.Fn" "" 0).Package = "pkg.sub" := by
  refine ⟨findObjectRef_first, trimObjectRef_strip, ?_, by decide, by decide, by decide,
    by decide, by decide, by decide, by decide, by decide, by decide, by decide, by decide⟩
  intro raw file line
  refine ⟨?_, ?_, ?_⟩
  · intro hlt
    rw [NewFuncInfo, parseName]
    rw [if_pos hlt]
    exact ⟨rfl, rfl, rfl⟩
  · intro i hlen hfind
    rw [NewFuncInfo, parseName]
    rw [if_neg (by omega), hfind]
    exact ⟨rfl, rfl, rfl⟩
  · intro hlen hfind
    rw [NewFuncInfo, parseName]
    rw [if_neg (by omega), hfind]
    exact ⟨rfl, rfl, rfl⟩

/-- Witness for `C3_parseName_contract` on the receiver-bearing name
`x.(*T).M`. -/
theorem C3_parseName_contract_witness :
    (NewFuncInfo "x.(*T).M" "f" 1).Function = "M" ∧
    (NewFuncInfo "x.(*T).M" "f" 1).Object = "T" ∧
    (NewFuncInfo "x.(*T).M" "f" 1).Package = "x" := by
  obtain ⟨h1, h2, h3⟩ :=
    (C3_parseName_contract.2.2.1 "x.(*T).M" "f" 1).2.1 1 (by decide) (by decide)
  exact ⟨by rw [h1]; decide, by rw [h2]; decide, by rw [h3]; decide⟩

/-- C4: `IsTest` holds exactly when the parsed function name carries one of
the three fixed prefix tokens under the word-boundary rule, with the claim's
concrete examples. -/
theorem C4_isTest_rule :
    (∀ f : FuncInfo, f.IsTest = true ↔
      (wordBoundary f.Function "Test" ∨ wordBoundary f.Function "Benchmark" ∨
        wordBoundary f.Function "Example")) ∧
    (mkFn "TestFoo").IsTest = true ∧
    (mkFn "Testing").IsTest = false ∧
    (mkFn "Test").IsTest = true ∧
    (mkFn "BenchmarkX").IsTest = true ∧
    (mkFn "ExampleY").IsTest = true := by
  refine ⟨?_, by decide, by decide, by decide, by decide, by decide⟩
  intro f
  rw [FuncInfo.IsTest, Bool.or_eq_true, Bool.or_eq_true,
    startsWith_iff, startsWith_iff, startsWith_iff]
  exact or_assoc

/-- C5, counterexample: the claim's concrete values are wrong on the code —
a receiver literally named `Mocker` (lowercase `e` after the token) and a
receiver `Mockish` (lowercase `i`) both fail the word-boundary rule, so
`IsMock` is false, not true. -/
theorem C5_mocker_mockish_counterexample :
    (mkObj "Mocker").IsMock = false ∧ (mkObj "Mockish").IsMock = false := by decide

/-- C5 (amended): `IsMock` is the word-boundary prefix match of `Mock` on
the receiver-type name; concretely `MockLogger` → true, `mocker` → false,
`Mocker` → false, `Mockish` → false (both continue with a lowercase letter
right after the token), while uppercase continuations such as `MockIsh`
→ true. -/
theorem C5_isMock_rule :
    (∀ f : FuncInfo, f.IsMock = true ↔ wordBoundary f.Object "Mock") ∧
    (mkObj "MockLogger").IsMock = true ∧
    (mkObj "mocker").IsMock = false ∧
    (mkObj "Mocker").IsMock = false ∧
    (mkObj "Mockish").IsMock = false ∧
    (mkObj "MockIsh").IsMock = true := by
  refine ⟨fun f => ?_, by decide, by decide, by decide, by decide, by decide⟩
  rw [FuncInfo.IsMock, startsWith_iff]

end Goonit

namespace Goonit

/-! ## C6–C9: the capture store -/

theorem mapLookup_mapStore_self (m : List (String × List GoVal)) (k : String) (v : List GoVal) :
    mapLookup (mapStore m k v) k = some v := by
  induction m with
  | nil => simp [mapStore, mapLookup]
  | cons kv rest ih =>
    obtain ⟨k2, v2⟩ := kv
    by_cases hk : k2 = k
    · simp [mapStore, hk, mapLookup]
    · simp [mapStore, hk, mapLookup, ih]

theorem mapLookup_mapStore_other (m : List (String × List GoVal)) (k k2 : String)
    (v : List GoVal) (h : k2 ≠ k) :
    mapLookup (mapStore m k v) k2 = mapLookup m k2 := by
  induction m with
  | nil =>
    have hne : ¬ (k = k2) := fun he => h he.symm
    simp [mapStore, mapLookup, hne]
  | cons kv rest ih =>
    obtain ⟨k3, v3⟩ := kv
    by_cases hk : k3 = k
    · subst hk
      have hne : ¬ (k3 = k2) := fun he => h he.symm
      simp [mapStore, mapLookup, hne]
    · simp [mapStore, hk, mapLookup, ih]

/-- The `range` accumulation of `CapturedOfType` flattens the per-bucket
filters. -/
theorem capturedOfType_foldl (t : GoType) (l : List (String × List GoVal)) :
    ∀ acc : List GoVal,
      l.foldl (fun acc kv => acc ++ capturedOfType t kv.2) acc =
        acc ++ (l.map fun kv => capturedOfType t kv.2).flatten := by
  induction l with
  | nil => intro acc; simp
  | cons kv rest ih => intro acc; simp [ih, List.append_assoc]

/-- C6: `Capture` runs a fresh walk; with no `Mocked` frame the values go
only to the global sequence and the non-fatal no-mock diagnostic is logged
(the hypothesis that the walk resolved an `ImmediateCaller` reflects that
the diagnostic formats it — on a real Go stack the outer runtime/testing
frames always lie outside the walker's package, so it is always present);
with a `Mocked` frame the key derived from `Mocker` and `Mocked` receives
the values in its bucket — appended in insertion order, other buckets
untouched — and the global sequence receives them too.  The closed
conjuncts run the claim's two-capture scenario: capturing "a" then "b" from
the same key yields the bucket `["a", "b"]`. -/
theorem C6_capture_routing :
    (∀ (x : BaseTest) (t : FuncInfo) (frames : List FuncInfo) (vals : List GoVal),
      (BuildCallerStack (some t) frames).Mocked = none →
      ((BuildCallerStack (some t) frames).frameAt
        (BuildCallerStack (some t) frames).Caller).isSome →
        Capture x (some t) frames vals =
          some ({ x with captured := x.captured ++ vals }, true)) ∧
    (∀ (x : BaseTest) (t : FuncInfo) (frames : List FuncInfo) (vals : List GoVal),
      (BuildCallerStack (some t) frames).Mocked ≠ none →
        ∃ key, MockedCall (BuildCallerStack (some t) frames) = some key ∧
          Capture x (some t) frames vals =
            some ({ x with
                    capsFrom := mapStore x.capsFrom key
                      ((mapLookup x.capsFrom key).getD [] ++ vals)
                    captured := x.captured ++ vals }, false) ∧
          mapLookup (mapStore x.capsFrom key ((mapLookup x.capsFrom key).getD [] ++ vals)) key =
            some ((mapLookup x.capsFrom key).getD [] ++ vals) ∧
          (∀ k2, k2 ≠ key →
            mapLookup (mapStore x.capsFrom key ((mapLookup x.capsFrom key).getD [] ++ vals)) k2 =
              mapLookup x.capsFrom k2)) ∧
    Capture ({} : BaseTest) (some fiWalker) capFrames [.vString "a"] =
      some ({ captured := [.vString "a"], capsFrom := [(capKey, [.vString "a"])] }, false) ∧
    Capture { captured := [.vString "a"], capsFrom := [(capKey, [.vString "a"])] }
        (some fiWalker) capFrames [.vString "b"] =
      some ({ captured := [.vString "a", .vString "b"],
              capsFrom := [(capKey, [.vString "a", .vString "b"])] }, false) ∧
    CapturedFrom { captured := [.vString "a", .vString "b"],
                   capsFrom := [(capKey, [.vString "a", .vString "b"])] } capKey =
      .ok [.vString "a", .vString "b"] := by
  refine ⟨?_, ?_, by decide, by decide, by rfl⟩
  · intro x t frames vals hM hC
    obtain ⟨c, hc⟩ := Option.isSome_iff_exists.mp hC
    rw [Capture]
    rw [if_pos hM, hc]
  · intro x t frames vals hM
    obtain ⟨key, hkey⟩ :=
      mockedCall_isSome (BuildCallerStack (some t) frames) (stackWF_BuildCallerStack _ _) hM
    refine ⟨key, hkey, ?_, mapLookup_mapStore_self _ _ _,
      fun k2 hk2 => mapLookup_mapStore_other _ _ _ _ hk2⟩
    rw [Capture]
    rw [if_neg hM, hkey]

/-- Witness for `C6_capture_routing`: a capture on a mock-free stack only
grows the global sequence and logs the diagnostic. -/
theorem C6_capture_routing_witness :
    Capture ({} : BaseTest) (some fiWalker) [fiPlain] [GoVal.vInt 7] =
      some ({ ({} : BaseTest) with
              captured := ({} : BaseTest).captured ++ [GoVal.vInt 7] }, true) :=
  C6_capture_routing.1 {} fiWalker [fiPlain] [GoVal.vInt 7] (by decide) (by decide)

/-- The bucket store used by the retrieval witnesses. -/
def wStore : BaseTest := { captured := [], capsFrom := [("k", [.vInt 1, .vString "s"])] }

/-- C7: `CapturedOfType` flattens the per-key buckets through the
assignability filter.  A returned sequence is non-empty and holds exactly
the captured values (across all keys) whose runtime type is assignable to
the expected one; it fails the test precisely when no bucket holds an
assignable value — in particular on an entirely empty store. -/
theorem C7_capturedOfType_rule :
    (∀ (x : BaseTest) (t : GoType) (l : List GoVal),
      CapturedOfType x t = .ok l →
        l ≠ [] ∧ ∀ v : GoVal, v ∈ l ↔ ∃ kv ∈ x.capsFrom, v ∈ kv.2 ∧ assignableTo v t = true) ∧
    (∀ (x : BaseTest) (t : GoType),
      (∃ msg, CapturedOfType x t = .error msg) ↔
        (∀ kv ∈ x.capsFrom, ∀ v ∈ kv.2, assignableTo v t = false)) ∧
    (∀ t : GoType,
      CapturedOfType ({} : BaseTest) t = .error "There were no captured parameters of type") := by
  have hmem : ∀ (x : BaseTest) (t : GoType) (v : GoVal),
      (v ∈ (x.capsFrom.map fun kv => capturedOfType t kv.2).flatten ↔
        ∃ kv ∈ x.capsFrom, v ∈ kv.2 ∧ assignableTo v t = true) := by
    intro x t v
    rw [List.mem_flatten]
    constructor
    · rintro ⟨s, hs, hv⟩
      obtain ⟨kv, hkv, rfl⟩ := List.mem_map.mp hs
      obtain ⟨hv2, hp⟩ := List.mem_filter.mp hv
      exact ⟨kv, hkv, hv2, hp⟩
    · rintro ⟨kv, hkv, hv2, hp⟩
      exact ⟨capturedOfType t kv.2, List.mem_map.mpr ⟨kv, hkv, rfl⟩,
        List.mem_filter.mpr ⟨hv2, hp⟩⟩
  refine ⟨?_, ?_, ?_⟩
  · intro x t l h
    rw [CapturedOfType] at h
    rw [capturedOfType_foldl t x.capsFrom []] at h
    simp only [List.nil_append] at h
    by_cases hc : ((x.capsFrom.map fun kv => capturedOfType t kv.2).flatten).length = 0
    · rw [if_pos hc] at h
      exact absurd h (by simp)
    · rw [if_neg hc] at h
      injection h with h
      subst h
      refine ⟨?_, fun v => hmem x t v⟩
      intro he
      exact hc (by rw [he]; rfl)
  · intro x t
    rw [CapturedOfType]
    rw [capturedOfType_foldl t x.capsFrom []]
    simp only [List.nil_append]
    constructor
    · rintro ⟨msg, hmsg⟩
      intro kv hkv v hv
      cases hp : assignableTo v t with
      | false => rfl
      | true =>
        exfalso
        by_cases hc : ((x.capsFrom.map fun kv => capturedOfType t kv.2).flatten).length = 0
        · have hvmem := (hmem x t v).mpr ⟨kv, hkv, hv, hp⟩
          rw [List.length_eq_zero.mp hc] at hvmem
          exact absurd hvmem (by simp)
        · rw [if_neg hc] at hmsg
          exact absurd hmsg (by simp)
    · intro hall
      have hflat : ((x.capsFrom.map fun kv => capturedOfType t kv.2).flatten) = [] := by
        rw [List.eq_nil_iff_forall_not_mem]
        intro v hv
        obtain ⟨kv, hkv, hv2, hp⟩ := (hmem x t v).mp hv
        rw [hall kv hkv v hv2] at hp
        exact absurd hp (by simp)
      rw [if_pos (by rw [hflat]; rfl)]
      exact ⟨_, rfl⟩
  · intro t
    rfl

/-- Witness for `C7_capturedOfType_rule` on a two-value bucket filtered to
its single int. -/
theorem C7_capturedOfType_rule_witness :
    [GoVal.vInt 1] ≠ [] ∧
    (GoVal.vInt 1 ∈ [GoVal.vInt 1] ↔
      ∃ kv ∈ wStore.capsFrom, GoVal.vInt 1 ∈ kv.2 ∧
        assignableTo (GoVal.vInt 1) GoType.tInt = true) := by
  have h := C7_capturedOfType_rule.1 wStore GoType.tInt [GoVal.vInt 1] (by rfl)
  exact ⟨h.1, h.2 (GoVal.vInt 1)⟩

end Goonit

namespace Goonit

/-- The store after `capture(42)` over the `capFrames` walk. -/
def x42 : BaseTest := { captured := [.vInt 42], capsFrom := [(capKey, [.vInt 42])] }

/-- C8: `Captured` (the `capturedAt` retrieval) returns the indexed value of
the global sequence exactly when the sequence is non-empty, the index is in
range (non-negative and below the length) and the value's runtime type is
assignable to the expected one; every other case is a non-`ok` result — a
fatal assertion failure naming the violated condition, or, for a negative
index, the runtime's own out-of-range panic.  The closed conjuncts replay
the claim's scenario: after `capture(42)`, `capturedAt(0, 0)` returns 42 and
`capturedAt(0, "")` fails. -/
theorem C8_capturedAt_rule :
    (∀ (x : BaseTest) (index : Int) (t : GoType) (v : GoVal),
      Captured x index t = .ok v ↔
        (x.captured ≠ [] ∧ 0 ≤ index ∧ index + 1 ≤ (x.captured.length : Int) ∧
          x.captured[index.toNat]? = some v ∧ assignableTo v t = true)) ∧
    Capture ({} : BaseTest) (some fiWalker) capFrames [.vInt 42] = some (x42, false) ∧
    Captured x42 0 .tInt = .ok (.vInt 42) ∧
    Captured x42 0 .tString = .fatal "captured parameter type is not assignable" := by
  refine ⟨?_, by decide, by decide, by decide⟩
  intro x index t v
  rw [Captured]
  by_cases h1 : x.captured.length = 0
  · rw [if_pos h1]
    constructor
    · intro h
      exact absurd h (by simp)
    · rintro ⟨hne, _⟩
      exact absurd (List.length_eq_zero.mp h1) hne
  · rw [if_neg h1]
    by_cases h2 : (index + 1 : Int) ≤ (x.captured.length : Int)
    · rw [if_neg (not_not_intro h2)]
      by_cases h3 : index < 0
      · rw [if_pos h3]
        constructor
        · intro h
          exact absurd h (by simp)
        · rintro ⟨_, hge, _⟩
          omega
      · rw [if_neg h3]
        have hlt : index.toNat < x.captured.length := by omega
        rw [List.getElem?_eq_getElem hlt]
        change (if assignableTo (x.captured[index.toNat]) t = true
            then CapResult.ok (x.captured[index.toNat])
            else CapResult.fatal "captured parameter type is not assignable") = CapResult.ok v ↔ _
        by_cases h4 : assignableTo (x.captured[index.toNat]) t = true
        · rw [if_pos h4]
          constructor
          · intro h
            injection h with h
            subst h
            exact ⟨fun he => h1 (by rw [he]; rfl), by omega, h2, rfl, h4⟩
          · rintro ⟨_, _, _, hv, _⟩
            injection hv with hv
            rw [hv]
        · rw [if_neg h4]
          constructor
          · intro h
            exact absurd h (by simp)
          · rintro ⟨_, _, _, hv, ha⟩
            injection hv with hv
            rw [← hv] at ha
            exact absurd ha h4
    · rw [if_pos h2]
      constructor
      · intro h
        exact absurd h (by simp)
      · rintro ⟨_, _, hle, _⟩
        exact absurd hle h2

/-- Witness for `C8_capturedAt_rule`: the success characterization applied
backwards at the concrete store. -/
theorem C8_capturedAt_rule_witness :
    Captured x42 0 GoType.tInt = CapResult.ok (GoVal.vInt 42) :=
  (C8_capturedAt_rule.1 x42 0 GoType.tInt (GoVal.vInt 42)).mpr (by decide)

/-- The store exhibiting the `CapturedOfTypeFromCall` diagnostic slip. -/
def bugStore : BaseTest := { captured := [.vInt 42], capsFrom := [("k", [.vInt 42])] }

/-- C9: on an empty intersection `CapturedOfTypeFromCall` does fail the
test, but its diagnostic's `capTypes` slice is built by ranging over the
already-filtered, provably empty result instead of the key's bucket, so the
listed candidate types are always `[]` — here the bucket holds an `int`
candidate (third conjunct), yet the failure lists no types (fourth
conjunct), contradicting the documented intent of listing the candidates'
runtime types. -/
theorem C9_empty_type_diagnostic_bug :
    CapturedFrom bugStore "k" = .ok [.vInt 42] ∧
    capturedOfType .tString [.vInt 42] = [] ∧
    ((mapLookup bugStore.capsFrom "k").getD []).map (fun c => typeName c.typeOf) = ["int"] ∧
    CapturedOfTypeFromCall bugStore .tString "k" = .error (.noneOfType [] ["k"]) := by
  exact ⟨rfl, rfl, rfl, rfl⟩

end Goonit
